import Mathlib

/-!
Verification of the eduai-detector core (`src/eduai_detector/core/detector.py`).

The detector is a pure function from text to a result tuple
`(is_ai_generated, metrics, explanation, confidence_score)`.  Text is
modelled as `List Char`, Python floats as `ℝ`, Python dicts holding the
eight metric values as association lists over the fixed key set
`MetricName`.  The external NLTK / TextBlob library calls
(`word_tokenize`, `sent_tokenize`, `pos_tag`, TextBlob sentence and word
extraction) are opaque dependencies of the repository, so they are
parameters of the embedding, collected in the `NLP` structure; every
theorem that does not depend on their behaviour is quantified over them.
-/

namespace EduAI

/-- Characters treated as whitespace by Python's `str.strip` / `str.split`
(ASCII subset: space, tab, line feed, carriage return, vertical tab,
form feed). -/
def isPySpace (c : Char) : Bool :=
  c == ' ' || c == '\t' || c == '\n' || c == '\r' || c == '\x0b' || c == '\x0c'

/-- Python `str.strip()`: remove leading and trailing whitespace. -/
def pyStrip (s : List Char) : List Char :=
  ((s.dropWhile isPySpace).reverse.dropWhile isPySpace).reverse

/-- Python `str.split()` with no argument: split on whitespace runs,
dropping empty chunks. -/
def pySplit (s : List Char) : List (List Char) :=
  (s.splitOnP isPySpace).filter (fun w => !w.isEmpty)

/-- The sentence splitter used by `_calculate_complexity`:
`[s.strip() for s in re.split(r'[.!?]+', text) if s.strip()]`.
Splitting on every single delimiter character and then dropping blank
chunks coincides with splitting on delimiter runs, because the empty
chunks produced between adjacent delimiters are removed by the
`if s.strip()` filter. -/
def reSentenceSplit (text : List Char) : List (List Char) :=
  ((text.splitOnP (fun c => c == '.' || c == '!' || c == '?')).map pyStrip).filter
    (fun s => !s.isEmpty)

/-- Shannon entropy of the multiset of elements of `l`, exactly as computed
from `Counter(l).values()`: for each distinct element, `p = count/length`,
and the result is `-Σ p * log2 p`. -/
noncomputable def shannonEntropy {α : Type} [DecidableEq α] (l : List α) : ℝ :=
  -((l.dedup.map (fun a =>
      ((l.count a : ℝ) / (l.length : ℝ)) *
        Real.logb 2 ((l.count a : ℝ) / (l.length : ℝ)))).sum)

/-- `numpy.mean` of a list of reals. -/
noncomputable def npMean (l : List ℝ) : ℝ := l.sum / (l.length : ℝ)

/-- `numpy.std` of a list of reals (population standard deviation). -/
noncomputable def npStd (l : List ℝ) : ℝ :=
  Real.sqrt ((l.map (fun x => (x - npMean l) ^ 2)).sum / (l.length : ℝ))

/-- The eight metric names produced by `_calculate_metrics`. -/
inductive MetricName : Type
  | repetition_score
  | entropy_score
  | complexity_score
  | vocabulary_diversity
  | sentence_variation
  | transition_patterns
  | pos_distribution
  | readability
  deriving DecidableEq

/-- `self.metric_weights` from `AITextDetector.__init__`. -/
noncomputable def metric_weights : MetricName → ℝ
  | .repetition_score => 0.10
  | .entropy_score => 0.15
  | .complexity_score => 0.10
  | .vocabulary_diversity => 0.20
  | .sentence_variation => 0.20
  | .transition_patterns => 0.10
  | .pos_distribution => 0.10
  | .readability => 0.05

/-- `self.thresholds` from `AITextDetector.__init__`. -/
noncomputable def thresholds : MetricName → ℝ
  | .repetition_score => 0.25
  | .entropy_score => 4.3
  | .complexity_score => 3.5
  | .vocabulary_diversity => 0.45
  | .sentence_variation => 0.30
  | .transition_patterns => 0.03
  | .pos_distribution => 0.85
  | .readability => 50.0

/-- `self.transition_words` from `AITextDetector.__init__`. -/
def transition_words : List (List Char) :=
  ([ "however", "therefore", "furthermore", "moreover", "nevertheless",
     "thus", "consequently", "meanwhile", "subsequently", "alternatively",
     "although", "despite", "whereas", "while", "hence", "additionally",
     "similarly", "likewise", "in contrast", "conversely", "instead",
     "rather", "still", "yet", "anyway", "besides", "further", "next",
     "finally", "lastly", "first", "second", "third", "then", "also" ] :
    List String).map (fun s => s.toList)

/-- The bigram list of `_calculate_repetition`:
`[f"{words[i]} {words[i+1]}" for i in range(len(words)-1)]`, i.e. each
adjacent pair joined by a single space. -/
def mkBigrams (words : List (List Char)) : List (List Char) :=
  (words.zip words.tail).map (fun p => p.1 ++ ' ' :: p.2)

/-- `_calculate_repetition`: fraction of distinct adjacent bigrams that
occur more than once among all adjacent bigrams. -/
noncomputable def calculate_repetition (words : List (List Char)) : ℝ :=
  if words.length < 2 then 0.0
  else
    let bigrams := mkBigrams words
    let total_bigrams := bigrams.length
    let repeated_bigrams :=
      (bigrams.dedup.filter (fun b => decide (1 < bigrams.count b))).length
    if 0 < total_bigrams then (repeated_bigrams : ℝ) / (total_bigrams : ℝ) else 0.0

/-- `_calculate_entropy`: character-level Shannon entropy of the lowercased
text (the divisor `len(text)` equals the length of the lowercased copy). -/
noncomputable def calculate_entropy (text : List Char) : ℝ :=
  if text = [] then 0.0 else shannonEntropy (text.map Char.toLower)

/-- `_calculate_complexity`: weighted combination of average word length
and average sentence length. -/
noncomputable def calculate_complexity (text : List Char) : ℝ :=
  if text = [] then 0.0
  else
    let sentences := reSentenceSplit text
    let words := pySplit (text.map Char.toLower)
    if sentences = [] ∨ words = [] then 0.0
    else
      let avg_word_length := ((words.map (fun w => (w.length : ℝ))).sum) / (words.length : ℝ)
      let avg_sentence_length := (words.length : ℝ) / (sentences.length : ℝ)
      avg_word_length * 0.5 + avg_sentence_length * 0.05

/-- `_calculate_vocabulary_diversity`: distinct words over total words. -/
noncomputable def calculate_vocabulary_diversity (words : List (List Char)) : ℝ :=
  if words = [] then 0.0 else (words.dedup.length : ℝ) / (words.length : ℝ)

/-- `_calculate_sentence_variation`: coefficient of variation of the
per-sentence token counts, where each sentence is tokenized by
`word_tokenize` (a library function, passed as the parameter `tok`). -/
noncomputable def calculate_sentence_variation (tok : List Char → List (List Char))
    (sentences : List (List Char)) : ℝ :=
  if sentences = [] then 0.0
  else
    let lengths := sentences.map (fun s => ((tok s).length : ℝ))
    let mean_length := npMean lengths
    let std_length := npStd lengths
    if 0 < mean_length then std_length / mean_length else 0.0

/-- `_calculate_transition_patterns`: fraction of words whose lowercased
form is a transition word. -/
noncomputable def calculate_transition_patterns (words : List (List Char)) : ℝ :=
  if words = [] then 0.0
  else
    ((words.filter (fun w => decide ((w.map Char.toLower) ∈ transition_words))).length : ℝ) /
      (words.length : ℝ)

/-- The normalized POS-entropy score computed by `_calculate_pos_distribution`
from the list of POS tags: `min(entropy / 4.0, 1.0)`. -/
noncomputable def tagScore (tags : List (List Char)) : ℝ :=
  min (shannonEntropy tags / 4.0) 1.0

/-- `_count_syllables`: heuristic vowel-group count with trailing-e
adjustments. -/
def count_syllables (word : List Char) : Int :=
  let w := word.map Char.toLower
  let count :=
    (w.foldl (fun (st : Int × Bool) c =>
      let is_vowel := decide (c ∈ (['a', 'e', 'i', 'o', 'u', 'y'] : List Char))
      (if is_vowel && !st.2 then st.1 + 1 else st.1, is_vowel)) ((0 : Int), false)).1
  let count := if (['e'] : List Char).isSuffixOf w then count - 1 else count
  let count :=
    if (['l', 'e'] : List Char).isSuffixOf w && decide (2 < w.length) then count + 1 else count
  if count = 0 then 1 else count

/-- The Flesch Reading Ease computation of `_calculate_readability`, as a
function of the TextBlob sentence count and word list. -/
noncomputable def fleschScore (sentences : ℕ) (words : List (List Char)) : ℝ :=
  if words.length = 0 ∨ sentences = 0 then 0.0
  else
    max 0.0 (min 100.0
      (206.835 - 1.015 * ((words.length : ℝ) / (sentences : ℝ)) -
        84.6 * ((((words.map count_syllables).sum : ℤ) : ℝ) / (words.length : ℝ))))

/-- The external NLTK / TextBlob operations used by the detector; they are
library calls, not repository code, so the embedding abstracts over them. -/
structure NLP : Type where
  wordTokenize : List Char → List (List Char)
  sentTokenize : List Char → List (List Char)
  posTag : List (List Char) → List (List Char × List Char)
  blobSentences : List Char → List (List Char)
  blobWords : List Char → List (List Char)

/-- `_calculate_pos_distribution`: normalized Shannon entropy of the POS-tag
distribution of the tokenized text. -/
noncomputable def calculate_pos_distribution (nlp : NLP) (text : List Char) : ℝ :=
  if pyStrip text = [] then 0.0
  else tagScore ((nlp.posTag (nlp.wordTokenize text)).map Prod.snd)

/-- `_calculate_readability`: Flesch Reading Ease over TextBlob sentences
and words, clamped to `[0, 100]`. -/
noncomputable def calculate_readability (nlp : NLP) (text : List Char) : ℝ :=
  if pyStrip text = [] then 0.0
  else fleschScore (nlp.blobSentences text).length (nlp.blobWords text)

/-- `_calculate_metrics`: the eight named metric values, in the insertion
order of the Python dict literal. -/
noncomputable def calculate_metrics (nlp : NLP) (text : List Char) :
    List (MetricName × ℝ) :=
  let words := nlp.wordTokenize (text.map Char.toLower)
  let sentences := nlp.sentTokenize text
  [(MetricName.repetition_score, calculate_repetition words),
   (MetricName.entropy_score, calculate_entropy text),
   (MetricName.complexity_score, calculate_complexity text),
   (MetricName.vocabulary_diversity, calculate_vocabulary_diversity words),
   (MetricName.sentence_variation, calculate_sentence_variation nlp.wordTokenize sentences),
   (MetricName.transition_patterns, calculate_transition_patterns words),
   (MetricName.pos_distribution, calculate_pos_distribution nlp text),
   (MetricName.readability, calculate_readability nlp text)]

/-- The membership test
`metric_name in ['vocabulary_diversity', 'sentence_variation', 'transition_patterns']`
of `_calculate_confidence_score`. -/
def lowerIsMoreAI : MetricName → Bool
  | .vocabulary_diversity => true
  | .sentence_variation => true
  | .transition_patterns => true
  | _ => false

/-- The per-metric normalized value of `_calculate_confidence_score`:
direction-adjusted ratio against the threshold, clipped to `[0, 1]`. -/
noncomputable def normalizedValue (name : MetricName) (value : ℝ) : ℝ :=
  let threshold := thresholds name
  let raw :=
    if lowerIsMoreAI name then
      if 0 < threshold then 1.0 - value / threshold else 0.0
    else
      if 0 < threshold then value / threshold else 0.0
  max 0.0 (min 1.0 raw)

/-- `_calculate_confidence_score`: weighted sum of the clipped normalized
metric values, finally clamped to `[0, 1]`. -/
noncomputable def calculate_confidence_score (metrics : List (MetricName × ℝ)) : ℝ :=
  let score := (metrics.map (fun p => normalizedValue p.1 p.2 * metric_weights p.1)).sum
  max 0.0 (min 1.0 score)

/-- `_generate_explanation`, modelled shallowly: only the leading verdict
sentence is represented, because the remainder of the report interpolates
Python float formatting, and no claim below depends on the body of the
explanation text. -/
def generate_explanation (metrics : List (MetricName × ℝ)) (confidence_score : ℝ)
    (is_ai_generated : Bool) : String :=
  if is_ai_generated then ("This text shows characteristics of AI-generated content:")
  else ("This text shows characteristics more typical of human-written content:")

/-- `AITextDetector.detect`: the main entry point.  The returned tuple is,
in source order: `is_ai_generated`, `metrics`, `explanation`,
`confidence_score`. -/
noncomputable def detect (nlp : NLP) (text : List Char) :
    Bool × List (MetricName × ℝ) × String × ℝ :=
  if pyStrip text = [] then (false, [], "No text provided", 0.0)
  else
    let metrics := calculate_metrics nlp text
    let confidence_score := calculate_confidence_score metrics
    let is_ai_generated : Bool := decide ((0.70 : ℝ) < confidence_score)
    (is_ai_generated, metrics,
      generate_explanation metrics confidence_score is_ai_generated, confidence_score)

/-- `_calculate_pos_distribution` with the library call `pos_tag` modelled
as fallible (`Except` stands for a Python call that may raise).  The source
has no `try/except` around the call, so the monadic bind simply propagates
a failure; only the empty-input guard precedes the call. -/
noncomputable def calculate_pos_distributionE (wordTok : List Char → List (List Char))
    (posTagE : List (List Char) → Except String (List (List Char × List Char)))
    (text : List Char) : Except String ℝ :=
  if pyStrip text = [] then Except.ok 0.0
  else (posTagE (wordTok text)).map (fun tagged => tagScore (tagged.map Prod.snd))

/-- `_calculate_readability` with the TextBlob sentence/word extraction
modelled as fallible.  As in the source, there is no handler around the
library call: a failure propagates past the Flesch computation. -/
noncomputable def calculate_readabilityE
    (blobE : List Char → Except String (List (List Char) × List (List Char)))
    (text : List Char) : Except String ℝ :=
  if pyStrip text = [] then Except.ok 0.0
  else (blobE text).map (fun sw => fleschScore sw.1.length sw.2)

/-- Clamp to the unit interval, as the claim describes it. -/
noncomputable def clamp01 (x : ℝ) : ℝ := max 0.0 (min 1.0 x)

/-- The metrics association list built from a value assignment for the
eight metric names, in the insertion order of `_calculate_metrics`. -/
noncomputable def metricsAList (m : MetricName → ℝ) : List (MetricName × ℝ) :=
  [(MetricName.repetition_score, m .repetition_score),
   (MetricName.entropy_score, m .entropy_score),
   (MetricName.complexity_score, m .complexity_score),
   (MetricName.vocabulary_diversity, m .vocabulary_diversity),
   (MetricName.sentence_variation, m .sentence_variation),
   (MetricName.transition_patterns, m .transition_patterns),
   (MetricName.pos_distribution, m .pos_distribution),
   (MetricName.readability, m .readability)]

/-- The confidence score as the specification sentence states it: for each
metric a normalized value (`1 - value/threshold` for vocabulary diversity,
sentence variation and transition patterns, `value/threshold` for the
others), clamped to `[0, 1]`, multiplied by the metric's weight, and
summed over the eight metrics.  This definition follows the claim's words
and is compared with `calculate_confidence_score`, which follows the
source. -/
noncomputable def confidenceSpec (m : MetricName → ℝ) : ℝ :=
  metric_weights .repetition_score *
      clamp01 (m .repetition_score / thresholds .repetition_score) +
    metric_weights .entropy_score *
      clamp01 (m .entropy_score / thresholds .entropy_score) +
    metric_weights .complexity_score *
      clamp01 (m .complexity_score / thresholds .complexity_score) +
    metric_weights .vocabulary_diversity *
      clamp01 (1 - m .vocabulary_diversity / thresholds .vocabulary_diversity) +
    metric_weights .sentence_variation *
      clamp01 (1 - m .sentence_variation / thresholds .sentence_variation) +
    metric_weights .transition_patterns *
      clamp01 (1 - m .transition_patterns / thresholds .transition_patterns) +
    metric_weights .pos_distribution *
      clamp01 (m .pos_distribution / thresholds .pos_distribution) +
    metric_weights .readability *
      clamp01 (m .readability / thresholds .readability)

/-- A concrete instantiation of the library operations, used to evaluate
the theorems on concrete inputs: whitespace tokenization, one sentence per
whitespace chunk, and a constant noun tag. -/
def nlp0 : NLP where
  wordTokenize := pySplit
  sentTokenize := pySplit
  posTag := fun tokens => tokens.map (fun t => (t, ("NN").toList))
  blobSentences := pySplit
  blobWords := pySplit

/-- A list of nonpositive reals has nonpositive sum. -/
theorem list_sum_nonpos {l : List ℝ} (h : ∀ x ∈ l, x ≤ 0) : l.sum ≤ 0 := by
  induction l with
  | nil => simp
  | cons a t ih =>
    simp only [List.sum_cons]
    have ha := h a (List.mem_cons_self a t)
    have ht := ih (fun x hx => h x (List.mem_cons_of_mem a hx))
    linarith

/-- Each summand of `shannonEntropy` is nonpositive. -/
theorem shannon_term_nonpos {α : Type} [DecidableEq α] (l : List α) (a : α) (ha : a ∈ l) :
    ((l.count a : ℝ) / (l.length : ℝ)) *
      Real.logb 2 ((l.count a : ℝ) / (l.length : ℝ)) ≤ 0 := by
  have hlen : 0 < l.length := List.length_pos.2 (List.ne_nil_of_mem ha)
  have hcount : 0 < l.count a := List.count_pos_iff.2 ha
  have hp0 : (0 : ℝ) < (l.count a : ℝ) / (l.length : ℝ) :=
    div_pos (by exact_mod_cast hcount) (by exact_mod_cast hlen)
  have hp1 : (l.count a : ℝ) / (l.length : ℝ) ≤ 1 := by
    rw [div_le_one (by exact_mod_cast hlen)]
    exact_mod_cast List.count_le_length a l
  have hlog := Real.logb_nonpos (by norm_num : (1 : ℝ) < 2) hp0.le hp1
  exact mul_nonpos_iff.2 (Or.inl ⟨hp0.le, hlog⟩)

/-- Shannon entropy of any list is nonnegative. -/
theorem shannonEntropy_nonneg {α : Type} [DecidableEq α] (l : List α) :
    0 ≤ shannonEntropy l := by
  unfold shannonEntropy
  rw [neg_nonneg]
  apply list_sum_nonpos
  intro x hx
  rcases List.mem_map.1 hx with ⟨a, ha, rfl⟩
  exact shannon_term_nonpos l a (List.mem_dedup.1 ha)

/-- Shannon entropy vanishes when at most one distinct element occurs. -/
theorem shannonEntropy_eq_zero {α : Type} [DecidableEq α] (l : List α)
    (h : l.dedup.length ≤ 1) : shannonEntropy l = 0 := by
  unfold shannonEntropy
  rcases Nat.le_one_iff_eq_zero_or_eq_one.1 h with h0 | h1
  · have hnil : l.dedup = [] := List.length_eq_zero.1 h0
    simp [hnil]
  · rcases List.length_eq_one.1 h1 with ⟨a, hd⟩
    have hmem : a ∈ l := List.mem_dedup.1 (by rw [hd]; exact List.mem_singleton_self a)
    have hall : ∀ b ∈ l, a = b := by
      intro b hb
      have hbd : b ∈ l.dedup := List.mem_dedup.2 hb
      rw [hd] at hbd
      exact (List.mem_singleton.1 hbd).symm
    have hcount : l.count a = l.length := List.count_eq_length.2 hall
    have hlen : (0 : ℝ) < (l.length : ℝ) := by
      exact_mod_cast List.length_pos.2 (List.ne_nil_of_mem hmem)
    rw [hd]
    simp [hcount, div_self hlen.ne']

/-- The counts over the distinct elements of a list sum to its length. -/
theorem sum_count_toFinset {α : Type} [DecidableEq α] (l : List α) :
    ∑ x in l.toFinset, l.count x = l.length := by
  simpa using Multiset.toFinset_sum_count_eq (l : Multiset α)

/-- Counts of two distinct members together never exceed the length. -/
theorem count_add_count_le_length {α : Type} [DecidableEq α] (l : List α) {a b : α}
    (ha : a ∈ l) (hb : b ∈ l) (hab : a ≠ b) : l.count a + l.count b ≤ l.length := by
  have hsub : ({a, b} : Finset α) ⊆ l.toFinset := by
    intro x hx
    rcases Finset.mem_insert.1 hx with rfl | hx
    · exact List.mem_toFinset.2 ha
    · rw [Finset.mem_singleton] at hx
      subst hx
      exact List.mem_toFinset.2 hb
  have hsum : ∑ x in ({a, b} : Finset α), l.count x ≤ ∑ x in l.toFinset, l.count x :=
    Finset.sum_le_sum_of_subset hsub
  rw [Finset.sum_insert (by simp [hab]), Finset.sum_singleton, sum_count_toFinset] at hsum
  exact hsum

/-- A list with at least two distinct elements contains an element different
from any given `a`. -/
theorem exists_ne_mem_of_two_le_dedup {α : Type} [DecidableEq α] (l : List α) (a : α)
    (h2 : 2 ≤ l.dedup.length) : ∃ b ∈ l, b ≠ a := by
  rcases hd : l.dedup with _ | ⟨x, _ | ⟨y, rest⟩⟩
  · rw [hd] at h2; simp at h2
  · rw [hd] at h2; simp at h2
  · have hx : x ∈ l := List.mem_dedup.1 (by rw [hd]; exact List.mem_cons_self _ _)
    have hy : y ∈ l :=
      List.mem_dedup.1 (by rw [hd]; exact List.mem_cons_of_mem _ (List.mem_cons_self _ _))
    have hnd := List.nodup_dedup l
    rw [hd] at hnd
    have hxy : x ≠ y := by
      intro hxyeq
      subst hxyeq
      simp [List.nodup_cons] at hnd
    by_cases hax : x = a
    · exact ⟨y, hy, fun hya => hxy (by rw [hax, hya])⟩
    · exact ⟨x, hx, hax⟩

/-- With at least two distinct elements, no single element accounts for the
whole list. -/
theorem count_lt_length {α : Type} [DecidableEq α] (l : List α) {a : α} (ha : a ∈ l)
    (h2 : 2 ≤ l.dedup.length) : l.count a < l.length := by
  obtain ⟨b, hb, hba⟩ := exists_ne_mem_of_two_le_dedup l a h2
  have hc := count_add_count_le_length l ha hb (fun hab => hba hab.symm)
  have hcb : 0 < l.count b := List.count_pos_iff.2 hb
  omega

/-- Shannon entropy is strictly positive once two distinct elements occur. -/
theorem shannonEntropy_pos {α : Type} [DecidableEq α] (l : List α)
    (h2 : 2 ≤ l.dedup.length) : 0 < shannonEntropy l := by
  unfold shannonEntropy
  rw [neg_pos]
  have hne : l.dedup ≠ [] := by
    intro h
    rw [h] at h2
    simp at h2
  obtain ⟨a, ha⟩ := List.exists_mem_of_ne_nil l.dedup hne
  set f : α → ℝ := fun x =>
    ((l.count x : ℝ) / (l.length : ℝ)) * Real.logb 2 ((l.count x : ℝ) / (l.length : ℝ)) with hf
  have hmem : a ∈ l := List.mem_dedup.1 ha
  have hlen : 0 < l.length := List.length_pos.2 (List.ne_nil_of_mem hmem)
  have hcount : 0 < l.count a := List.count_pos_iff.2 hmem
  have hlt : l.count a < l.length := count_lt_length l hmem h2
  have hp0 : (0 : ℝ) < (l.count a : ℝ) / (l.length : ℝ) :=
    div_pos (by exact_mod_cast hcount) (by exact_mod_cast hlen)
  have hp1 : (l.count a : ℝ) / (l.length : ℝ) < 1 := by
    rw [div_lt_one (by exact_mod_cast hlen)]
    exact_mod_cast hlt
  have hterm : f a < 0 :=
    mul_neg_of_pos_of_neg hp0 (Real.logb_neg (by norm_num : (1 : ℝ) < 2) hp0 hp1)
  have hperm : List.Perm l.dedup (a :: l.dedup.erase a) := List.perm_cons_erase ha
  have hsum : (l.dedup.map f).sum = f a + ((l.dedup.erase a).map f).sum := by
    rw [(hperm.map f).sum_eq]
    simp
  have hrest : ((l.dedup.erase a).map f).sum ≤ 0 := by
    apply list_sum_nonpos
    intro x hx
    rcases List.mem_map.1 hx with ⟨b, hb, rfl⟩
    exact shannon_term_nonpos l b (List.mem_dedup.1 (List.mem_of_mem_erase hb))
  calc (l.dedup.map f).sum = f a + ((l.dedup.erase a).map f).sum := hsum
  _ < 0 := by linarith

/-- `numpy.std` is a square root, hence nonnegative. -/
theorem npStd_nonneg (l : List ℝ) : 0 ≤ npStd l := by
  unfold npStd
  exact Real.sqrt_nonneg _

/-- The population standard deviation of a one-element sample is zero. -/
theorem npStd_singleton (x : ℝ) : npStd [x] = 0 := by
  simp [npStd, npMean]

/-- A single sentence yields zero sentence variation: its only length
coincides with the mean, so the standard deviation vanishes. -/
theorem sentence_variation_single (tok : List Char → List (List Char)) (s : List Char) :
    calculate_sentence_variation tok [s] = 0 := by
  simp only [calculate_sentence_variation]
  rw [if_neg (by simp : ¬([s] : List (List Char)) = [])]
  simp only [List.map_cons, List.map_nil]
  by_cases h : 0 < npMean [((tok s).length : ℝ)]
  · rw [if_pos h, npStd_singleton, zero_div]
  · rw [if_neg h]
    norm_num

/-- Sentence variation never goes below zero. -/
theorem sentence_variation_nonneg (tok : List Char → List (List Char))
    (sentences : List (List Char)) : 0 ≤ calculate_sentence_variation tok sentences := by
  unfold calculate_sentence_variation
  split_ifs with h1
  · norm_num
  · dsimp only
    split_ifs with h2
    · exact div_nonneg (npStd_nonneg _) h2.le
    · norm_num

/-- Vocabulary diversity of a nonempty duplicate-free word list is `1`. -/
theorem vocabulary_diversity_nodup (words : List (List Char)) (hne : words ≠ [])
    (hnd : words.Nodup) : calculate_vocabulary_diversity words = 1 := by
  unfold calculate_vocabulary_diversity
  rw [if_neg hne, hnd.dedup]
  have hlen : (0 : ℝ) < (words.length : ℝ) := by
    exact_mod_cast List.length_pos.2 hne
  exact div_self hlen.ne'

/-- Vocabulary diversity of `k` copies of one word followed by a
duplicate-free remainder avoiding that word. -/
theorem vocabulary_diversity_replicate (w : List Char) (r : List (List Char)) (k : ℕ)
    (hk : k ≠ 0) (hr : r.Nodup) (hw : w ∉ r) :
    calculate_vocabulary_diversity (List.replicate k w ++ r) =
      ((1 + r.length : ℕ) : ℝ) / (((k + r.length : ℕ)) : ℝ) := by
  have hne : List.replicate k w ++ r ≠ [] := by
    intro h
    have hrep : List.replicate k w = [] := (List.append_eq_nil.1 h).1
    exact hk (by simpa using congrArg List.length hrep)
  unfold calculate_vocabulary_diversity
  rw [if_neg hne]
  have hdedup : (List.replicate k w ++ r).dedup.length = 1 + r.length := by
    rw [← List.card_toFinset, List.toFinset_append, List.toFinset_replicate_of_ne_zero hk,
      ← Finset.insert_eq, Finset.card_insert_of_not_mem (by simpa using hw),
      List.toFinset_card_of_nodup hr]
    omega
  have hlen : (List.replicate k w ++ r).length = k + r.length := by simp
  rw [hdedup, hlen]

/-- A list whose elements all map to at least `2` has `Σ f ≥ 2·|xs|`. -/
theorem two_mul_length_le_sum {α : Type} (xs : List α) (f : α → ℕ)
    (h : ∀ x ∈ xs, 2 ≤ f x) : 2 * xs.length ≤ (xs.map f).sum := by
  induction xs with
  | nil => simp
  | cons a t ih =>
    simp only [List.map_cons, List.sum_cons, List.length_cons]
    have ha := h a (List.mem_cons_self a t)
    have ht := ih (fun x hx => h x (List.mem_cons_of_mem a hx))
    omega

/-- The distinct elements occurring more than once number at most half the
list length: each such element contributes at least two occurrences. -/
theorem two_mul_repeated_le_length {α : Type} [DecidableEq α] (l : List α) :
    2 * (l.dedup.filter (fun b => decide (1 < l.count b))).length ≤ l.length := by
  set rep := l.dedup.filter (fun b => decide (1 < l.count b)) with hrep
  have hsub : List.Sublist rep l.dedup := List.filter_sublist _
  have h2 : ∀ x ∈ rep, 2 ≤ l.count x := by
    intro x hx
    have hx2 : 1 < l.count x := by simpa using List.of_mem_filter hx
    omega
  have hle1 : 2 * rep.length ≤ (rep.map (fun x => l.count x)).sum :=
    two_mul_length_le_sum rep _ h2
  have hle2 : (rep.map (fun x => l.count x)).sum ≤ (l.dedup.map (fun x => l.count x)).sum :=
    List.Sublist.sum_le_sum (hsub.map _) (fun a _ => Nat.zero_le a)
  have heq := List.sum_map_count_dedup_eq_length l
  omega

/-- The structural `BEq` on `List Char` counts exactly like the
`DecidableEq`-derived one. -/
theorem count_beq_bridge (b : List Char) (l : List (List Char)) :
    @List.count (List Char) List.instBEq b l =
      @List.count (List Char) instBEqOfDecidableEq b l := by
  induction l with
  | nil => rfl
  | cons a t ih => simp [List.count_cons, ih]

/-- `two_mul_repeated_le_length`, stated with the `BEq` instance that the
elaborated `calculate_repetition` uses. -/
theorem two_mul_repeated_le_length_char (l : List (List Char)) :
    2 * (l.dedup.filter (fun b => decide (1 < @List.count (List Char) List.instBEq b l))).length ≤
      l.length := by
  have hfun : (fun b => decide (1 < @List.count (List Char) List.instBEq b l)) =
      (fun b => decide (1 < @List.count (List Char) instBEqOfDecidableEq b l)) := by
    funext b
    rw [count_beq_bridge b l]
  rw [hfun]
  exact two_mul_repeated_le_length l

/-- The repetition score is nonnegative. -/
theorem repetition_nonneg (words : List (List Char)) : 0 ≤ calculate_repetition words := by
  unfold calculate_repetition
  split_ifs with h1
  · norm_num
  · dsimp only
    split_ifs with h2
    · positivity
    · norm_num

/-- The repetition score never exceeds one half. -/
theorem repetition_le_half (words : List (List Char)) :
    calculate_repetition words ≤ 1 / 2 := by
  unfold calculate_repetition
  split_ifs with h1
  · norm_num
  · dsimp only
    split_ifs with h2
    · have hkey := two_mul_repeated_le_length_char (mkBigrams words)
      have hpos : (0 : ℝ) < ((mkBigrams words).length : ℝ) := by exact_mod_cast h2
      rw [div_le_div_iff hpos (by norm_num : (0 : ℝ) < 2)]
      have hcast : (2 * ((mkBigrams words).dedup.filter
          (fun b => decide (1 < @List.count (List Char) List.instBEq b
            (mkBigrams words)))).length : ℝ) ≤
          ((mkBigrams words).length : ℝ) := by exact_mod_cast hkey
      push_cast at hcast ⊢
      linarith
    · norm_num

/-- The entropy metric is nonnegative. -/
theorem entropy_nonneg (text : List Char) : 0 ≤ calculate_entropy text := by
  unfold calculate_entropy
  split_ifs
  · norm_num
  · exact shannonEntropy_nonneg _

/-- Vocabulary diversity is nonnegative. -/
theorem vocabulary_diversity_nonneg (words : List (List Char)) :
    0 ≤ calculate_vocabulary_diversity words := by
  unfold calculate_vocabulary_diversity
  split_ifs
  · norm_num
  · positivity

/-- The transition-word frequency is nonnegative. -/
theorem transition_patterns_nonneg (words : List (List Char)) :
    0 ≤ calculate_transition_patterns words := by
  unfold calculate_transition_patterns
  split_ifs
  · norm_num
  · positivity

/-- The complexity score is nonnegative. -/
theorem complexity_nonneg (text : List Char) : 0 ≤ calculate_complexity text := by
  unfold calculate_complexity
  split_ifs with h1
  · norm_num
  · dsimp only
    split_ifs with h2
    · norm_num
    · have hS : 0 ≤ ((pySplit (text.map Char.toLower)).map (fun w => (w.length : ℝ))).sum := by
        apply List.sum_nonneg
        intro x hx
        rcases List.mem_map.1 hx with ⟨w, _, rfl⟩
        positivity
      have hd1 : 0 ≤ ((pySplit (text.map Char.toLower)).map (fun w => (w.length : ℝ))).sum /
          ((pySplit (text.map Char.toLower)).length : ℝ) :=
        div_nonneg hS (Nat.cast_nonneg _)
      have hd2 : 0 ≤ ((pySplit (text.map Char.toLower)).length : ℝ) /
          ((reSentenceSplit text).length : ℝ) :=
        div_nonneg (Nat.cast_nonneg _) (Nat.cast_nonneg _)
      have hm1 := mul_nonneg hd1 (by norm_num : (0 : ℝ) ≤ 0.5)
      have hm2 := mul_nonneg hd2 (by norm_num : (0 : ℝ) ≤ 0.05)
      linarith

/-- The normalized POS entropy is nonnegative. -/
theorem tagScore_nonneg (tags : List (List Char)) : 0 ≤ tagScore tags := by
  unfold tagScore
  refine le_min ?_ (by norm_num)
  exact div_nonneg (shannonEntropy_nonneg _) (by norm_num)

/-- The POS-distribution metric is nonnegative, whatever the tagger. -/
theorem pos_distribution_nonneg (nlp : NLP) (text : List Char) :
    0 ≤ calculate_pos_distribution nlp text := by
  unfold calculate_pos_distribution
  split_ifs
  · norm_num
  · exact tagScore_nonneg _

/-- The Flesch computation is clamped below by zero. -/
theorem fleschScore_nonneg (sentences : ℕ) (words : List (List Char)) :
    0 ≤ fleschScore sentences words := by
  unfold fleschScore
  split_ifs
  · norm_num
  · exact le_trans (by norm_num) (le_max_left _ _)

/-- The readability metric is nonnegative, whatever the text blob yields. -/
theorem readability_nonneg (nlp : NLP) (text : List Char) :
    0 ≤ calculate_readability nlp text := by
  unfold calculate_readability
  split_ifs
  · norm_num
  · exact fleschScore_nonneg _ _

/-- The final confidence score is clamped into the unit interval for every
metrics association list. -/
theorem confidence_score_bounds (metrics : List (MetricName × ℝ)) :
    0 ≤ calculate_confidence_score metrics ∧ calculate_confidence_score metrics ≤ 1 := by
  unfold calculate_confidence_score
  constructor
  · exact le_trans (by norm_num) (le_max_left _ _)
  · exact max_le (by norm_num) (le_trans (min_le_left _ _) (by norm_num))

/-- A text of whitespace characters strips to the empty text. -/
theorem pyStrip_eq_nil (text : List Char) (h : ∀ c ∈ text, isPySpace c = true) :
    pyStrip text = [] := by
  unfold pyStrip
  have h1 : text.dropWhile isPySpace = [] := List.dropWhile_eq_nil_iff.2 h
  rw [h1]
  simp

/-- Evaluation of `detect` on blank input. -/
theorem detect_neg (nlp : NLP) (text : List Char) (h : pyStrip text = []) :
    detect nlp text = (false, [], "No text provided", 0.0) := by
  unfold detect
  rw [if_pos h]

/-- Evaluation of `detect` on non-blank input: the tuple is, positionally,
verdict, metrics, explanation, confidence. -/
theorem detect_pos (nlp : NLP) (text : List Char) (h : ¬pyStrip text = []) :
    detect nlp text =
      (decide ((0.70 : ℝ) < calculate_confidence_score (calculate_metrics nlp text)),
        calculate_metrics nlp text,
        generate_explanation (calculate_metrics nlp text)
          (calculate_confidence_score (calculate_metrics nlp text))
          (decide ((0.70 : ℝ) < calculate_confidence_score (calculate_metrics nlp text))),
        calculate_confidence_score (calculate_metrics nlp text)) := by
  unfold detect
  rw [if_neg h]

/-- `normalizedValue` written as the claim states it; all eight thresholds
are positive, so the guard in the source is never the zero branch. -/
theorem normalizedValue_eq (name : MetricName) (v : ℝ) :
    normalizedValue name v =
      clamp01 (if lowerIsMoreAI name then 1 - v / thresholds name
        else v / thresholds name) := by
  cases name <;>
    norm_num [normalizedValue, clamp01, lowerIsMoreAI, thresholds]

/-- The clipped normalized value stays in the unit interval. -/
theorem normalizedValue_bounds (name : MetricName) (v : ℝ) :
    0 ≤ normalizedValue name v ∧ normalizedValue name v ≤ 1 := by
  unfold normalizedValue
  constructor
  · exact le_trans (by norm_num) (le_max_left _ _)
  · exact max_le (by norm_num) (le_trans (min_le_left _ _) (by norm_num))

/-- On the eight-key metrics list the source's confidence computation agrees
with the specification's weighted sum of clamped normalized values: the
final clamp in the source is the identity because the per-term clamps
already confine the sum to `[0, 1]`. -/
theorem confidence_eq_spec (m : MetricName → ℝ) :
    calculate_confidence_score (metricsAList m) = confidenceSpec m := by
  have hw : ∀ name : MetricName, (0 : ℝ) ≤ metric_weights name := by
    intro name
    cases name <;> norm_num [metric_weights]
  have hterm : ∀ name v, normalizedValue name v * metric_weights name ≤ metric_weights name :=
    fun name v => mul_le_of_le_one_left (hw name) (normalizedValue_bounds name v).2
  have hterm0 : ∀ name v, 0 ≤ normalizedValue name v * metric_weights name :=
    fun name v => mul_nonneg (normalizedValue_bounds name v).1 (hw name)
  unfold calculate_confidence_score metricsAList
  simp only [List.map_cons, List.map_nil, List.sum_cons, List.sum_nil, add_zero]
  have e1 := hterm .repetition_score (m .repetition_score)
  have e2 := hterm .entropy_score (m .entropy_score)
  have e3 := hterm .complexity_score (m .complexity_score)
  have e4 := hterm .vocabulary_diversity (m .vocabulary_diversity)
  have e5 := hterm .sentence_variation (m .sentence_variation)
  have e6 := hterm .transition_patterns (m .transition_patterns)
  have e7 := hterm .pos_distribution (m .pos_distribution)
  have e8 := hterm .readability (m .readability)
  have f1 := hterm0 .repetition_score (m .repetition_score)
  have f2 := hterm0 .entropy_score (m .entropy_score)
  have f3 := hterm0 .complexity_score (m .complexity_score)
  have f4 := hterm0 .vocabulary_diversity (m .vocabulary_diversity)
  have f5 := hterm0 .sentence_variation (m .sentence_variation)
  have f6 := hterm0 .transition_patterns (m .transition_patterns)
  have f7 := hterm0 .pos_distribution (m .pos_distribution)
  have f8 := hterm0 .readability (m .readability)
  have hw1 : metric_weights MetricName.repetition_score = 0.10 := rfl
  have hw2 : metric_weights MetricName.entropy_score = 0.15 := rfl
  have hw3 : metric_weights MetricName.complexity_score = 0.10 := rfl
  have hw4 : metric_weights MetricName.vocabulary_diversity = 0.20 := rfl
  have hw5 : metric_weights MetricName.sentence_variation = 0.20 := rfl
  have hw6 : metric_weights MetricName.transition_patterns = 0.10 := rfl
  have hw7 : metric_weights MetricName.pos_distribution = 0.10 := rfl
  have hw8 : metric_weights MetricName.readability = 0.05 := rfl
  rw [hw1] at e1; rw [hw2] at e2; rw [hw3] at e3; rw [hw4] at e4
  rw [hw5] at e5; rw [hw6] at e6; rw [hw7] at e7; rw [hw8] at e8
  have hS1 : normalizedValue .repetition_score (m .repetition_score) * metric_weights .repetition_score +
      (normalizedValue .entropy_score (m .entropy_score) * metric_weights .entropy_score +
      (normalizedValue .complexity_score (m .complexity_score) * metric_weights .complexity_score +
      (normalizedValue .vocabulary_diversity (m .vocabulary_diversity) * metric_weights .vocabulary_diversity +
      (normalizedValue .sentence_variation (m .sentence_variation) * metric_weights .sentence_variation +
      (normalizedValue .transition_patterns (m .transition_patterns) * metric_weights .transition_patterns +
      (normalizedValue .pos_distribution (m .pos_distribution) * metric_weights .pos_distribution +
      normalizedValue .readability (m .readability) * metric_weights .readability)))))) ≤ 1.0 := by
    rw [hw1, hw2, hw3, hw4, hw5, hw6, hw7, hw8] at *
    linarith
  have hS0 : (0 : ℝ) ≤ normalizedValue .repetition_score (m .repetition_score) * metric_weights .repetition_score +
      (normalizedValue .entropy_score (m .entropy_score) * metric_weights .entropy_score +
      (normalizedValue .complexity_score (m .complexity_score) * metric_weights .complexity_score +
      (normalizedValue .vocabulary_diversity (m .vocabulary_diversity) * metric_weights .vocabulary_diversity +
      (normalizedValue .sentence_variation (m .sentence_variation) * metric_weights .sentence_variation +
      (normalizedValue .transition_patterns (m .transition_patterns) * metric_weights .transition_patterns +
      (normalizedValue .pos_distribution (m .pos_distribution) * metric_weights .pos_distribution +
      normalizedValue .readability (m .readability) * metric_weights .readability)))))) := by
    linarith
  rw [min_eq_right hS1, max_eq_right]
  · unfold confidenceSpec
    rw [normalizedValue_eq, normalizedValue_eq, normalizedValue_eq, normalizedValue_eq,
      normalizedValue_eq, normalizedValue_eq, normalizedValue_eq, normalizedValue_eq]
    simp only [lowerIsMoreAI]
    norm_num
    ring
  · exact le_trans (by norm_num) hS0

/-- C1: evaluation of the source's result tuple on non-blank input.  The
components are, positionally: verdict, METRICS, explanation, CONFIDENCE —
i.e. the metrics mapping is the second component and the confidence score
the fourth.  The claim (and the API caller `analyze_text`, which unpacks
`is_ai, confidence, metrics, explanation`) instead expects the confidence
second and the metrics third, which the source contradicts. -/
theorem claim1_detect_tuple_order (nlp : NLP) (text : List Char)
    (h : ¬pyStrip text = []) :
    (detect nlp text).2.1 = calculate_metrics nlp text ∧
    (detect nlp text).2.2.2 = calculate_confidence_score (calculate_metrics nlp text) ∧
    (detect nlp text).1 =
      decide ((0.70 : ℝ) < calculate_confidence_score (calculate_metrics nlp text)) ∧
    (detect nlp text).2.2.1 =
      generate_explanation (calculate_metrics nlp text)
        (calculate_confidence_score (calculate_metrics nlp text))
        (decide ((0.70 : ℝ) < calculate_confidence_score (calculate_metrics nlp text))) := by
  rw [detect_pos nlp text h]
  exact ⟨rfl, rfl, rfl, rfl⟩

/-- C1 witness: concrete evaluation on a non-blank text. -/
theorem claim1_witness :
    (detect nlp0 (("Hello world").toList)).2.1 =
      calculate_metrics nlp0 (("Hello world").toList) ∧
    (detect nlp0 (("Hello world").toList)).2.2.2 =
      calculate_confidence_score (calculate_metrics nlp0 (("Hello world").toList)) := by
  have h := claim1_detect_tuple_order nlp0 (("Hello world").toList) (by decide)
  exact ⟨h.1, h.2.1⟩

/-- C2: on empty or whitespace-only text, `detect` totals out to the fixed
neutral result with verdict `false`; being a total function of the
embedding, it raises nothing. -/
theorem claim2_whitespace_neutral (nlp : NLP) (text : List Char)
    (h : ∀ c ∈ text, isPySpace c = true) :
    detect nlp text = (false, [], "No text provided", 0.0) :=
  detect_neg nlp text (pyStrip_eq_nil text h)

/-- C2 witness: the empty text and a whitespace-only text. -/
theorem claim2_witness :
    detect nlp0 [] = (false, [], "No text provided", 0.0) ∧
    detect nlp0 ((" \t ").toList) = (false, [], "No text provided", 0.0) :=
  ⟨claim2_whitespace_neutral nlp0 [] (by decide),
   claim2_whitespace_neutral nlp0 ((" \t ").toList) (by decide)⟩

/-- C3: for every metrics mapping the confidence equals the weighted sum of
direction-adjusted normalized values clamped to `[0,1]`; the confidence is
in `[0,1]`; and the verdict holds exactly when the confidence exceeds the
cutoff `0.70`, which lies in the range `[0.6, 0.7]`. -/
theorem claim3_confidence_score (m : MetricName → ℝ) :
    calculate_confidence_score (metricsAList m) = confidenceSpec m ∧
    (0 ≤ calculate_confidence_score (metricsAList m) ∧
      calculate_confidence_score (metricsAList m) ≤ 1) ∧
    (∀ (nlp : NLP) (text : List Char), ¬pyStrip text = [] →
      ((detect nlp text).1 = true ↔
        (0.70 : ℝ) < calculate_confidence_score (calculate_metrics nlp text))) ∧
    ((0.6 : ℝ) ≤ 0.70 ∧ (0.70 : ℝ) ≤ 0.7) := by
  refine ⟨confidence_eq_spec m, confidence_score_bounds _, ?_, by norm_num⟩
  intro nlp text h
  rw [detect_pos nlp text h]
  simp

/-- C3 witness: the all-zero metrics mapping, and the verdict equivalence on
a concrete text. -/
theorem claim3_witness :
    calculate_confidence_score (metricsAList (fun _ => 0)) = confidenceSpec (fun _ => 0) ∧
    ((detect nlp0 (("Hello world").toList)).1 = true ↔
      (0.70 : ℝ) < calculate_confidence_score
        (calculate_metrics nlp0 (("Hello world").toList))) :=
  ⟨(claim3_confidence_score (fun _ => 0)).1,
   (claim3_confidence_score (fun _ => 0)).2.2.1 nlp0 (("Hello world").toList) (by decide)⟩

/-- C4 counterexample: the source applies no clamp at `1.0`.  With
whitespace tokenization, the sentences `["a","b","c","a a a a a a a a a a"]`
have token counts `[1,1,1,10]`, whose coefficient of variation
`√(243/16)/(13/4) ≈ 1.2` exceeds `1`. -/
theorem claim4_counterexample :
    1 < calculate_sentence_variation pySplit
      [("a").toList, ("b").toList, ("c").toList, ("a a a a a a a a a a").toList] := by
  have l1 : (pySplit (("a").toList)).length = 1 := by decide
  have l2 : (pySplit (("b").toList)).length = 1 := by decide
  have l3 : (pySplit (("c").toList)).length = 1 := by decide
  have l4 : (pySplit (("a a a a a a a a a a").toList)).length = 10 := by decide
  have hmean : npMean [(1 : ℝ), 1, 1, 10] = 13 / 4 := by
    norm_num [npMean]
  have hstd : npStd [(1 : ℝ), 1, 1, 10] = Real.sqrt (243 / 16) := by
    unfold npStd
    rw [hmean]
    norm_num
  unfold calculate_sentence_variation
  rw [if_neg (by simp : ¬([("a").toList, ("b").toList, ("c").toList,
    ("a a a a a a a a a a").toList] : List (List Char)) = [])]
  dsimp only
  rw [List.map_cons, List.map_cons, List.map_cons, List.map_cons, List.map_nil,
    l1, l2, l3, l4]
  push_cast
  rw [hmean, hstd]
  rw [if_pos (by norm_num)]
  rw [one_lt_div (by norm_num : (0 : ℝ) < 13 / 4)]
  refine (Real.lt_sqrt (by norm_num)).2 ?_
  norm_num

/-- C4 (amended): the sentence variation is the unclamped coefficient of
variation — it can exceed `1.0` — but it does equal `0` whenever fewer than
two sentences exist, and it is never negative. -/
theorem claim4_amended (tok : List Char → List (List Char))
    (sentences : List (List Char)) :
    (sentences.length < 2 → calculate_sentence_variation tok sentences = 0) ∧
    0 ≤ calculate_sentence_variation tok sentences := by
  refine ⟨?_, sentence_variation_nonneg tok sentences⟩
  intro h
  rcases sentences with _ | ⟨s, _ | ⟨s2, t⟩⟩
  · norm_num [calculate_sentence_variation]
  · exact sentence_variation_single tok s
  · simp at h
    omega

/-- C4 witness: a single sentence has variation `0`. -/
theorem claim4_witness :
    calculate_sentence_variation pySplit [("hello world").toList] = 0 ∧
    0 ≤ calculate_sentence_variation pySplit [("hello world").toList] :=
  ⟨(claim4_amended pySplit [("hello world").toList]).1 (by norm_num),
   (claim4_amended pySplit [("hello world").toList]).2⟩

/-- C5 counterexample: the source's entropy is over characters, not tokens.
The text `"ab"` is a single token (`str.split` yields one chunk), yet its
entropy is strictly positive, contradicting the claimed `0.0` for a text
consisting of a single repeated token. -/
theorem claim5_counterexample :
    pySplit (("ab").toList) = [("ab").toList] ∧
    0 < calculate_entropy (("ab").toList) := by
  refine ⟨by decide, ?_⟩
  unfold calculate_entropy
  rw [if_neg (by decide : ¬(("ab").toList : List Char) = [])]
  exact shannonEntropy_pos _ (by decide)

/-- C5 (amended): the entropy score is `0` exactly on texts whose lowercased
characters are all equal (in particular a repeated single-character token)
and strictly positive as soon as two distinct characters occur (in
particular whenever two distinct whitespace-separated tokens occur). -/
theorem claim5_amended (text : List Char) :
    ((text.map Char.toLower).dedup.length ≤ 1 → calculate_entropy text = 0) ∧
    (2 ≤ (text.map Char.toLower).dedup.length → 0 < calculate_entropy text) := by
  constructor
  · intro h
    unfold calculate_entropy
    split_ifs with he
    · norm_num
    · exact shannonEntropy_eq_zero _ h
  · intro h
    unfold calculate_entropy
    split_ifs with he
    · rw [he] at h
      simp at h
    · exact shannonEntropy_pos _ h

/-- C5 witness: a repeated single character, and a two-character text. -/
theorem claim5_witness :
    calculate_entropy (("aaa").toList) = 0 ∧
    0 < calculate_entropy (("ab").toList) :=
  ⟨(claim5_amended (("aaa").toList)).1 (by decide),
   (claim5_amended (("ab").toList)).2 (by decide)⟩

/-- C6 counterexample: a failing tagger is not caught inside
`_calculate_pos_distribution`; the extractor yields the failure itself,
not any neutral default value. -/
theorem claim6_counterexample :
    calculate_pos_distributionE pySplit (fun _ => Except.error ("tagger failed"))
      (("Hello world").toList) = Except.error ("tagger failed") := by
  unfold calculate_pos_distributionE
  rw [if_neg (by decide)]
  rfl

/-- C6 (amended): failures of the tagging / text-blob sub-computations are
NOT caught inside the metric extractors: on any non-blank text they
propagate unchanged; only blank input short-circuits to a neutral value. -/
theorem claim6_amended (wordTok : List Char → List (List Char)) (e : String)
    (text : List Char) (h : ¬pyStrip text = []) :
    calculate_pos_distributionE wordTok (fun _ => Except.error e) text = Except.error e ∧
    calculate_readabilityE (fun _ => Except.error e) text = Except.error e := by
  unfold calculate_pos_distributionE calculate_readabilityE
  rw [if_neg h, if_neg h]
  exact ⟨rfl, rfl⟩

/-- C6 witness: concrete failing sub-computations on a concrete text. -/
theorem claim6_witness :
    calculate_pos_distributionE pySplit (fun _ => Except.error ("boom"))
      (("Hi").toList) = Except.error ("boom") ∧
    calculate_readabilityE (fun _ => Except.error ("boom"))
      (("Hi").toList) = Except.error ("boom") :=
  claim6_amended pySplit ("boom") (("Hi").toList) (by decide)

/-- C7: every value in the metrics mapping produced by `_calculate_metrics`
is nonnegative, for every text and every behaviour of the library calls. -/
theorem claim7_metrics_nonneg (nlp : NLP) (text : List Char) (p : MetricName × ℝ)
    (hp : p ∈ calculate_metrics nlp text) : 0 ≤ p.2 := by
  simp only [calculate_metrics, List.mem_cons, List.not_mem_nil, or_false] at hp
  rcases hp with h | h | h | h | h | h | h | h <;> subst h
  · exact repetition_nonneg _
  · exact entropy_nonneg _
  · exact complexity_nonneg _
  · exact vocabulary_diversity_nonneg _
  · exact sentence_variation_nonneg _ _
  · exact transition_patterns_nonneg _
  · exact pos_distribution_nonneg _ _
  · exact readability_nonneg _ _

/-- C7 witness: the entropy entry of a concrete metrics list. -/
theorem claim7_witness :
    (MetricName.entropy_score, calculate_entropy (("ab").toList)) ∈
      calculate_metrics nlp0 (("ab").toList) ∧
    0 ≤ (MetricName.entropy_score, calculate_entropy (("ab").toList)).2 := by
  have hmem : (MetricName.entropy_score, calculate_entropy (("ab").toList)) ∈
      calculate_metrics nlp0 (("ab").toList) := by
    simp [calculate_metrics]
  exact ⟨hmem, claim7_metrics_nonneg nlp0 (("ab").toList) _ hmem⟩

/-- C8: vocabulary diversity is `1` on nonempty duplicate-free word lists,
and, holding the total count fixed, strictly decreases when the repetition
count of a single word grows by one. -/
theorem claim8_vocabulary_diversity :
    (∀ ws : List (List Char), ws ≠ [] → ws.Nodup →
      calculate_vocabulary_diversity ws = 1) ∧
    (∀ (w : List Char) (r1 r2 : List (List Char)) (k : ℕ), k ≠ 0 →
      r1.Nodup → r2.Nodup → w ∉ r1 → w ∉ r2 →
      k + r1.length = (k + 1) + r2.length →
      calculate_vocabulary_diversity (List.replicate (k + 1) w ++ r2) <
        calculate_vocabulary_diversity (List.replicate k w ++ r1)) := by
  constructor
  · exact fun ws hne hnd => vocabulary_diversity_nodup ws hne hnd
  · intro w r1 r2 k hk h1 h2 hw1 hw2 hlen
    rw [vocabulary_diversity_replicate w r1 k hk h1 hw1,
      vocabulary_diversity_replicate w r2 (k + 1) (Nat.succ_ne_zero k) h2 hw2]
    rw [hlen]
    have hD : (0 : ℝ) < ((k + 1 + r2.length : ℕ) : ℝ) := by
      exact_mod_cast (by omega : 0 < k + 1 + r2.length)
    have hnum : ((1 + r2.length : ℕ) : ℝ) < ((1 + r1.length : ℕ) : ℝ) := by
      exact_mod_cast (by omega : 1 + r2.length < 1 + r1.length)
    exact div_lt_div_of_pos_right hnum hD

/-- C8 witness: `[w, a, b]` is fully diverse; repeating `w` once more at
fixed total length strictly lowers the diversity. -/
theorem claim8_witness :
    calculate_vocabulary_diversity
        (List.replicate 1 (("w").toList) ++ [("a").toList, ("b").toList]) = 1 ∧
    calculate_vocabulary_diversity
        (List.replicate 2 (("w").toList) ++ [("a").toList]) <
      calculate_vocabulary_diversity
        (List.replicate 1 (("w").toList) ++ [("a").toList, ("b").toList]) :=
  ⟨(claim8_vocabulary_diversity).1
      (List.replicate 1 (("w").toList) ++ [("a").toList, ("b").toList])
      (by decide) (by decide),
   (claim8_vocabulary_diversity).2 (("w").toList) [("a").toList, ("b").toList]
      [("a").toList] 1 (by decide) (by decide) (by decide) (by decide) (by decide)
      (by decide)⟩

/-- C9: on blank input the result carries the empty metrics mapping (no
metric key at all), confidence exactly `0.0`, and the fixed explanation
string, with verdict `false`. -/
theorem claim9_blank_result (nlp : NLP) (text : List Char) (h : pyStrip text = []) :
    detect nlp text = (false, ([] : List (MetricName × ℝ)), "No text provided", 0.0) :=
  detect_neg nlp text h

/-- C9 witness: a whitespace-only text. -/
theorem claim9_witness :
    detect nlp0 (("  ").toList) =
      (false, ([] : List (MetricName × ℝ)), "No text provided", 0.0) :=
  claim9_blank_result nlp0 (("  ").toList) (by decide)

/-- C10: the repetition score always lies in `[0, 1/2]`, and on word lists
of length at least two it is the number of distinct adjacent bigrams
occurring more than once divided by the total number of adjacent bigrams. -/
theorem claim10_repetition_bounds (words : List (List Char)) :
    (0 ≤ calculate_repetition words ∧ calculate_repetition words ≤ 1 / 2) ∧
    (2 ≤ words.length →
      calculate_repetition words =
        (((mkBigrams words).dedup.filter
          (fun b => decide (1 < @List.count (List Char) List.instBEq b
            (mkBigrams words)))).length : ℝ) / ((mkBigrams words).length : ℝ)) := by
  refine ⟨⟨repetition_nonneg words, repetition_le_half words⟩, ?_⟩
  intro h
  have hlen : (mkBigrams words).length = words.length - 1 := by
    unfold mkBigrams
    rw [List.length_map, List.length_zip, List.length_tail]
    omega
  unfold calculate_repetition
  rw [if_neg (by omega : ¬words.length < 2)]
  dsimp only
  rw [if_pos (by rw [hlen]; omega)]

/-- C10 witness: the word list `[a, b, a, b, a]`, whose four bigrams contain
two repeated types. -/
theorem claim10_witness :
    calculate_repetition
        [("a").toList, ("b").toList, ("a").toList, ("b").toList, ("a").toList] =
      (((mkBigrams [("a").toList, ("b").toList, ("a").toList, ("b").toList,
          ("a").toList]).dedup.filter
        (fun b => decide (1 < @List.count (List Char) List.instBEq b
          (mkBigrams [("a").toList, ("b").toList, ("a").toList, ("b").toList,
            ("a").toList])))).length : ℝ) /
        ((mkBigrams [("a").toList, ("b").toList, ("a").toList, ("b").toList,
          ("a").toList]).length : ℝ) :=
  (claim10_repetition_bounds
    [("a").toList, ("b").toList, ("a").toList, ("b").toList, ("a").toList]).2
    (by norm_num)

end EduAI
